import Mathlib

/-!
Verification development for the timeline composition engine of the poetry
video generator (src/services/video_service.py together with the constants
of src/config/settings.py and the enums of src/config/themes.py).

Durations and gains are modelled as rationals, Python ints as Int/Nat.
Media clips are modelled as records carrying a duration together with a
content function from mix time to source provenance, so that looping,
trimming and gain application can be stated exactly.
-/

namespace PoetryVideo

/-- Video settings from src/config/settings.py (class Settings). -/
def video_width : ℕ := 1080

/-- Configured output height (settings.video_height). -/
def video_height : ℕ := 1920

/-- Configured nominal duration in seconds (settings.video_duration). -/
def video_duration : ℕ := 18

/-- Configured frame rate (settings.video_fps). -/
def video_fps : ℕ := 24

/-- Python int() conversion on a rational: truncation toward zero. -/
def pyInt (q : ℚ) : ℤ := if 0 ≤ q then ⌊q⌋ else ⌈q⌉

/-- Source-time remainder used when a clip of length b is looped: a - b * floor (a / b). -/
def qmod (a b : ℚ) : ℚ := a - b * ⌊a / b⌋

/-- Python `x or y` for an optional int (both None and 0 are falsy). -/
def pyOrNat (o : Option ℕ) (dflt : ℕ) : ℕ :=
  match o with
  | some v => if v = 0 then dflt else v
  | none => dflt

/-- duration = duration_override or settings.video_duration (generate_video, line 84). -/
def requestDuration (duration_override : Option ℕ) : ℕ :=
  pyOrNat duration_override video_duration

/-- Whitespace trimming on both ends, Python str.strip(). -/
def trimChars (cs : List Char) : List Char :=
  ((cs.dropWhile Char.isWhitespace).reverse.dropWhile Char.isWhitespace).reverse

/-- Python str.strip() on a string. -/
def pyStrip (s : String) : String :=
  String.mk (trimChars s.data)

/-- Whether the second list begins with the first one. -/
def listStarts : List Char → List Char → Bool
  | [], _ => true
  | _ :: _, [] => false
  | p :: ps, c :: cs => p == c && listStarts ps cs

/-- Python s.startswith(pre). -/
def pyStartsWith (s pre : String) : Bool :=
  listStarts pre.data s.data

/-- Python str.split(<comma>): splitting an empty string yields one empty
piece, and every separator opens a new piece. -/
def splitCommas : List Char → List (List Char)
  | [] => [[]]
  | c :: cs =>
    if c == ',' then [] :: splitCommas cs
    else
      match splitCommas cs with
      | [] => [[c]]
      | r :: rs => (c :: r) :: rs

/-- State of the voiceover input as _create_video_sync observes it:
no path handed over, path set but the file is missing, path set but
AudioFileClip raises, or the clip loads with the given duration. -/
inductive NarrationState where
  | noPath : NarrationState
  | pathMissing : NarrationState
  | loadError : NarrationState
  | loaded : ℚ → NarrationState
  deriving DecidableEq

/-- Python truthiness of voiceover_path (line 266 tests only the path, not the file). -/
def NarrationState.hasPath : NarrationState → Bool
  | .noPath => false
  | _ => true

/-- Duration of the narration clip when it loads (path set, file exists, AudioFileClip ok). -/
def NarrationState.clip? : NarrationState → Option ℚ
  | .loaded d => some d
  | _ => none

/-- Duration resolver (_create_video_sync lines 174-184): if the voiceover file
exists and loads, actual_duration = voiceover duration + 2.0 seconds; any
failure is caught and the requested duration is kept. -/
def actualDuration (duration : ℚ) (narr : NarrationState) : ℚ :=
  match narr.clip? with
  | some d => d + 2
  | none => duration

/-- Provenance of an audio sample in the mix: a sample of the background
music source at source time t, or of the voiceover source at source time t. -/
inductive ASample where
  | bgm : ℚ → ASample
  | voice : ℚ → ASample
  deriving DecidableEq

/-- An audio clip: a duration and, for each mix time, the list of
(gain, source sample) contributions heard at that time. -/
structure AClip where
  duration : ℚ
  sample : ℚ → List (ℚ × ASample)

/-- Contributions a clip actually plays at mix time t: its samples inside
[0, duration), nothing outside. -/
def AClip.play (c : AClip) (t : ℚ) : List (ℚ × ASample) :=
  if 0 ≤ t ∧ t < c.duration then c.sample t else []

/-- AudioFileClip(audio_path) for the background music file of duration d. -/
def audioFileBgm (d : ℚ) : AClip :=
  ⟨d, fun t => [(1, ASample.bgm t)]⟩

/-- AudioFileClip(voiceover_path) for the narration file of duration d. -/
def audioFileVoice (d : ℚ) : AClip :=
  ⟨d, fun t => [(1, ASample.voice t)]⟩

/-- clip.subclip(0, r): keep the content, duration becomes r. -/
def AClip.subclip0 (c : AClip) (r : ℚ) : AClip :=
  ⟨r, c.sample⟩

/-- concatenate_audioclips([c] * n) for n copies of one clip of duration
c.duration: at mix time t the copy playing is the one containing t, at
source offset qmod t c.duration. -/
def concatCopies (c : AClip) (n : ℕ) : AClip :=
  ⟨(n : ℚ) * c.duration, fun t => c.sample (qmod t c.duration)⟩

/-- clip.fx(volumex, g): multiply every contribution's gain by g. -/
def AClip.volumex (c : AClip) (g : ℚ) : AClip :=
  ⟨c.duration, fun t => (c.sample t).map (fun p => (g * p.1, p.2))⟩

/-- CompositeAudioClip([a, b]): both clips play over their own intervals;
the composite lasts until the later of the two ends. -/
def compositeAudio (a b : AClip) : AClip :=
  ⟨max a.duration b.duration, fun t => a.play t ++ b.play t⟩

/-- Background music volume (line 266): 0.15 when a voiceover path is set,
0.25 otherwise. -/
def bgVolume (narr : NarrationState) : ℚ :=
  if narr.hasPath then 15 / 100 else 25 / 100

/-- Background music adaptation (lines 258-263): shorter than the target it
is concatenated loops_needed = int(actual / d) + 1 times and cut to actual;
otherwise it is cut to actual. -/
def bgmAdapted (d actual : ℚ) : AClip :=
  if d < actual then
    (concatCopies (audioFileBgm d) (pyInt (actual / d) + 1).toNat).subclip0 actual
  else (audioFileBgm d).subclip0 actual

/-- Narration adaptation (lines 279-282): never looped; longer than the
target it is cut to actual, shorter it is left as is. -/
def voiceAdapted (dv actual : ℚ) : AClip :=
  if dv > actual then (audioFileVoice dv).subclip0 actual else audioFileVoice dv

/-- Audio mixing of _create_video_sync (lines 250-301). bgm is the duration
of the background music file when it is present and loads, none otherwise
(absence and load failure both leave final_audio untouched). The narration
is mixed only when its file exists and loads. Returns the clip bound to
the video, or none when no audio is available. -/
def mixAudio (bgm : Option ℚ) (narr : NarrationState) (actual : ℚ) : Option AClip :=
  let final : Option AClip :=
    match bgm with
    | some d => some ((bgmAdapted d actual).volumex (bgVolume narr))
    | none => none
  match narr.clip? with
  | some dv =>
    let v := (voiceAdapted dv actual).volumex (1 / 2)
    match final with
    | some f => some (compositeAudio f v)
    | none => some v
  | none => final

/-- Duration of the audio stream bound to the video, if one is bound. -/
def mixedDuration (bgm : Option ℚ) (narr : NarrationState) (actual : ℚ) : Option ℚ :=
  (mixAudio bgm narr actual).map AClip.duration

/-- Whether a contribution comes from the voiceover source. -/
def isVoiceSample (p : ℚ × ASample) : Bool :=
  match p.2 with
  | ASample.voice _ => true
  | ASample.bgm _ => false

/-- Voiceover contributions of a sample list. -/
def voicePart (l : List (ℚ × ASample)) : List (ℚ × ASample) :=
  l.filter isVoiceSample

/-- Background music contributions of a sample list. -/
def bgmPart (l : List (ℚ × ASample)) : List (ℚ × ASample) :=
  l.filter (fun p => !isVoiceSample p)

/-- Provenance of a video frame: a frame of the loaded background source at
the given source time, or a solid fill of the given RGB color. -/
inductive Frame where
  | ofSource : ℚ → Frame
  | solid : ℕ × ℕ × ℕ → Frame
  deriving DecidableEq

/-- A video clip after background adaptation: duration, frame size, and the
frame shown at each timeline instant. -/
structure AdaptedVideo where
  duration : ℚ
  size : ℕ × ℕ
  frame : ℚ → Frame

/-- State of the background video input: no path available, the file fails
to load, or loaded with a native duration and native size. -/
inductive BgState where
  | absent : BgState
  | loadError : BgState
  | loaded : ℚ → ℕ × ℕ → BgState

/-- Background clip creation of _create_video_sync (lines 186-219): a loaded
clip shorter than the target is looped to exactly the target (frame at t is
the source frame at t mod native duration); a longer one is cut to
subclip(0, target); absence or a load failure yields a solid ColorClip of
the theme accent color, sized (width, height), lasting the target. -/
def adaptBackground (bg : BgState) (accent : ℕ × ℕ × ℕ) (w h : ℕ)
    (actual : ℚ) : AdaptedVideo :=
  match bg with
  | .loaded d sz =>
    if d < actual then ⟨actual, sz, fun t => Frame.ofSource (qmod t d)⟩
    else ⟨actual, sz, fun t => Frame.ofSource t⟩
  | _ => ⟨actual, (w, h), fun _ => Frame.solid accent⟩

/-- clip.resize((w, h)) (line 222): content kept, size replaced. -/
def AdaptedVideo.resize (v : AdaptedVideo) (sz : ℕ × ℕ) : AdaptedVideo :=
  ⟨v.duration, sz, v.frame⟩

/-- Duration and frame size of one element handed to the compositor. -/
structure VideoTrack where
  duration : ℚ
  size : ℕ × ℕ

/-- Track view of an adapted background clip. -/
def AdaptedVideo.track (v : AdaptedVideo) : VideoTrack :=
  ⟨v.duration, v.size⟩

/-- CompositeVideoClip(clips, size=sz): the frame size is the explicit size
argument; the natural duration is the latest end among the stacked clips. -/
def compositeVideoClip (clips : List VideoTrack) (sz : ℕ × ℕ) : VideoTrack :=
  ⟨(clips.map VideoTrack.duration).foldr max 0, sz⟩

/-- clip.set_duration(d): duration replaced, size kept. -/
def VideoTrack.setDuration (v : VideoTrack) (d : ℚ) : VideoTrack :=
  ⟨d, v.size⟩

/-- The composited render output: duration, frame size, and the audio
stream bound to it, if any. -/
structure FinalVideo where
  duration : ℚ
  size : ℕ × ℕ
  audio : Option AClip

/-- Composition pipeline of _create_video_sync (lines 174-315): resolve the
duration, adapt and resize the background, stack background, overlay and
text clips with CompositeVideoClip(size=(w, h)), force the duration with
set_duration(actual), and bind the mixed audio. textTracks stands for the
text elements, whose sizes and durations are arbitrary here. -/
def createVideoSync (hint : ℚ) (narr : NarrationState) (bg : BgState)
    (bgm : Option ℚ) (accent : ℕ × ℕ × ℕ) (w h : ℕ)
    (textTracks : List VideoTrack) : FinalVideo :=
  let actual := actualDuration hint narr
  let background := (adaptBackground bg accent w h actual).resize (w, h)
  let overlay : VideoTrack := ⟨actual, (w, h)⟩
  let composed := compositeVideoClip ([background.track, overlay] ++ textTracks) (w, h)
  let composed := composed.setDuration actual
  ⟨composed.duration, composed.size, mixAudio bgm narr actual⟩

/-- Result of the caption layout of _create_text_clips (lines 371-414). -/
structure TextLayout where
  lineHeight : ℤ
  totalTextHeight : ℤ
  startY : ℤ
  placed : List (String × ℤ)

/-- Caption layout of _create_text_clips: line_height = int(font_size *
line_spacing); total_text_height = len(poetry_lines) * line_height over ALL
input lines; start_y = (height - total_text_height) // 2; a text element is
emitted only for lines that are non-empty after strip, at
start_y + i * line_height with i the ORIGINAL index of the line. -/
def createTextClipsLayout (poetry_lines : List String) (font_size : ℕ)
    (line_spacing : ℚ) (height : ℤ) : TextLayout :=
  let line_height := pyInt ((font_size : ℚ) * line_spacing)
  let total_text_height := (poetry_lines.length : ℤ) * line_height
  let start_y := Int.fdiv (height - total_text_height) 2
  ⟨line_height, total_text_height, start_y,
    (poetry_lines.enum.filter (fun p => decide (pyStrip p.2 ≠ ""))).map
      (fun p => (pyStrip p.2, start_y + (p.1 : ℤ) * line_height))⟩

/-- Modelled from the spec words of 4.4, for comparison with the source
layout: empty or whitespace-only lines are dropped BEFORE layout, N is the
count of remaining lines, total_text_height = N * line_height, start_y =
(frame_height - total_text_height) / 2, and the j-th remaining line sits at
start_y + j * line_height. -/
def claimedCaptionLayout (poetry_lines : List String) (font_size : ℕ)
    (line_spacing : ℚ) (height : ℚ) : ℚ × ℚ × List (String × ℚ) :=
  let kept := poetry_lines.filter (fun l => decide (pyStrip l ≠ ""))
  let line_height : ℚ := (font_size : ℚ) * line_spacing
  let total_text_height : ℚ := (kept.length : ℚ) * line_height
  let start_y := (height - total_text_height) / 2
  ⟨total_text_height, start_y,
    kept.enum.map (fun p => (pyStrip p.2, start_y + (p.1 : ℚ) * line_height))⟩

/-- Animation modes of src/config/themes.py (class AnimationType). -/
inductive AnimationType where
  | fade_in : AnimationType
  | typewriter : AnimationType
  | slide_up : AnimationType
  | word_by_word : AnimationType
  | gentle_zoom : AnimationType
  deriving DecidableEq

/-- Scheduling of one text clip: start offset, visible duration, and the
fade-in length applied, none for an instantaneous appearance. -/
structure ScheduledClip where
  start : ℚ
  duration : ℚ
  fade : Option ℚ

/-- _apply_text_animation (lines 418-460): per mode, delay = line_index
times a constant, the clip runs from the delay for duration - delay, and a
mode-specific fade-in is applied (none for slide_up). -/
def applyTextAnimation (anim : AnimationType) (duration : ℚ)
    (line_index : ℕ) : ScheduledClip :=
  match anim with
  | .fade_in =>
    let delay : ℚ := (line_index : ℚ) * (5 / 10)
    ⟨delay, duration - delay, some 1⟩
  | .slide_up =>
    let delay : ℚ := (line_index : ℚ) * (3 / 10)
    ⟨delay, duration - delay, none⟩
  | .typewriter =>
    let delay : ℚ := (line_index : ℚ) * (8 / 10)
    ⟨delay, duration - delay, some (1 / 10)⟩
  | .word_by_word =>
    let delay : ℚ := (line_index : ℚ) * (6 / 10)
    ⟨delay, duration - delay, some (5 / 10)⟩
  | .gentle_zoom =>
    let delay : ℚ := (line_index : ℚ) * (4 / 10)
    ⟨delay, duration - delay, some (8 / 10)⟩

/-- Per-line delay constant of each animation mode. -/
def delayConst : AnimationType → ℚ
  | .fade_in => 5 / 10
  | .typewriter => 8 / 10
  | .slide_up => 3 / 10
  | .word_by_word => 6 / 10
  | .gentle_zoom => 4 / 10

/-- Fade-in length of each animation mode, none for slide_up. -/
def modeFade : AnimationType → Option ℚ
  | .fade_in => some 1
  | .typewriter => some (1 / 10)
  | .slide_up => none
  | .word_by_word => some (5 / 10)
  | .gentle_zoom => some (8 / 10)

/-- Temporary files a generation request can create (generate_video). -/
inductive TempFile where
  | outputFile : TempFile
  | backgroundCopy : TempFile
  | audioCopy : TempFile
  | voiceoverFile : TempFile
  deriving DecidableEq

/-- Which optional temporary files this request created. -/
structure RequestFiles where
  hasBackground : Bool
  hasAudio : Bool
  hasVoiceover : Bool

/-- How generate_video ends: the success path (with the flag telling whether
the upload returned a local file:// URL), a failure raised from the render
step, or a failure raised from the upload step. -/
inductive ExitPath where
  | success : Bool → ExitPath
  | renderFailure : ExitPath
  | uploadFailure : ExitPath

/-- Temporary files created by generate_video for one request: the output
file always (line 112), plus the background copy, audio copy and voiceover
file when present. -/
def createdFiles (f : RequestFiles) : List TempFile :=
  [TempFile.outputFile]
    ++ (if f.hasBackground then [TempFile.backgroundCopy] else [])
    ++ (if f.hasAudio then [TempFile.audioCopy] else [])
    ++ (if f.hasVoiceover then [TempFile.voiceoverFile] else [])

/-- Temporary files generate_video removes (lines 139-148): the cleanup
block runs only after a successful upload; it unlinks the output file
unless the URL is a local file:// one, then the background copy and audio
copy when present. Any exception before it (render or upload) propagates
at line 155 without reaching the cleanup; the voiceover file is never
unlinked on any path. -/
def cleanedFiles (f : RequestFiles) (path : ExitPath) : List TempFile :=
  match path with
  | .success urlIsFile =>
    (if !urlIsFile then [TempFile.outputFile] else [])
      ++ (if f.hasBackground then [TempFile.backgroundCopy] else [])
      ++ (if f.hasAudio then [TempFile.audioCopy] else [])
  | _ => []

/-- Value of one hexadecimal digit. -/
def hexDigitVal (c : Char) : Option ℕ :=
  if c.isDigit then some (c.toNat - 48)
  else if 'a' ≤ c ∧ c ≤ 'f' then some (c.toNat - 87)
  else if 'A' ≤ c ∧ c ≤ 'F' then some (c.toNat - 55)
  else none

/-- int(s, 16) on a short slice: fails on an empty slice or a non-hex
character. -/
def hexVal (cs : List Char) : Option ℕ :=
  match cs with
  | [] => none
  | _ =>
    cs.foldl
      (fun acc c =>
        match acc, hexDigitVal c with
        | some a, some v => some (16 * a + v)
        | _, _ => none)
      (some 0)

/-- Two-character slice hex_color[i:i+2]. -/
def slice2 (cs : List Char) (i : ℕ) : List Char :=
  (cs.drop i).take 2

/-- _hex_to_rgb (lines 575-578): strip leading # characters, then parse the
slices at 0, 2 and 4 as hex bytes; any failure is a raised error, modelled
as none. -/
def hex_to_rgb (s : String) : Option (ℕ × ℕ × ℕ) :=
  let cs := s.data.dropWhile (fun c => c == '#')
  match hexVal (slice2 cs 0), hexVal (slice2 cs 2), hexVal (slice2 cs 4) with
  | some r, some g, some b => some (r, g, b)
  | _, _, _ => none

/-- Split a character list at the first character satisfying p: the part
before it and, when found, the part after it. -/
def splitFirst (p : Char → Bool) : List Char → List Char × Option (List Char)
  | [] => ([], none)
  | c :: cs =>
    if p c then ([], some cs)
    else
      let r := splitFirst p cs
      (c :: r.1, r.2)

/-- Value of a non-empty run of decimal digits; fails on empty input or a
non-digit. -/
def digitsVal (cs : List Char) : Option ℕ :=
  match cs with
  | [] => none
  | _ =>
    cs.foldl
      (fun acc c =>
        match acc with
        | some a => if c.isDigit then some (10 * a + (c.toNat - 48)) else none
        | none => none)
      (some 0)

/-- Python float() on stripped characters: optional sign, then a decimal
mantissa (digits, digits.digits, digits. or .digits) and an optional
exponent; anything else raises, modelled as none. Exotic accepted spellings
(inf, nan, digit underscores) are not modelled. -/
def pyFloat (cs : List Char) : Option ℚ :=
  let sgnRest : ℚ × List Char :=
    match cs with
    | '+' :: r => (1, r)
    | '-' :: r => (-1, r)
    | r => (1, r)
  let mantExp := splitFirst (fun c => c == 'e' || c == 'E') sgnRest.2
  let mval : Option ℚ :=
    match splitFirst (fun c => c == '.') mantExp.1 with
    | (ip, none) => (digitsVal ip).map (fun n => (n : ℚ))
    | (ip, some fp) =>
      if ip.isEmpty && fp.isEmpty then none
      else
        match (if ip.isEmpty then some 0 else digitsVal ip),
            (if fp.isEmpty then some 0 else digitsVal fp) with
        | some iv, some fv => some ((iv : ℚ) + (fv : ℚ) / (10 : ℚ) ^ fp.length)
        | _, _ => none
  let eval : Option ℤ :=
    match mantExp.2 with
    | none => some 0
    | some ec =>
      let esgnRest : ℤ × List Char :=
        match ec with
        | '+' :: r => (1, r)
        | '-' :: r => (-1, r)
        | r => (1, r)
      (digitsVal esgnRest.2).map (fun n => esgnRest.1 * (n : ℤ))
  match mval, eval with
  | some m, some e => some (sgnRest.1 * m * (10 : ℚ) ^ e)
  | _, _ => none

/-- Slice rgba_string[5:-1]: the text between rgba( and the last character. -/
def innerSlice (s : String) : List Char :=
  (s.data.take (s.data.length - 1)).drop 5

/-- Components of an rgba(...) string: split the inner slice on commas and
parse every stripped piece as a float; none when any piece fails. -/
def rgbaNums (s : String) : Option (List ℚ) :=
  (splitCommas (innerSlice s)).mapM (fun v => pyFloat (trimChars v))

/-- Default returned by _parse_rgba on any parse error (line 591). -/
def defaultRGBA : List ℚ := [0, 0, 0, 3 / 10]

/-- _parse_rgba (lines 580-591): an rgba(...) string yields its parsed
components; any other string is treated as hex with implied alpha 1.0; any
raised error in either branch is caught and replaced by (0, 0, 0, 0.3). -/
def parse_rgba (s : String) : List ℚ :=
  if pyStartsWith s "rgba(" then
    match rgbaNums s with
    | some vs => vs
    | none => defaultRGBA
  else
    match hex_to_rgb s with
    | some (r, g, b) => [(r : ℚ), (g : ℚ), (b : ℚ), 1]
    | none => defaultRGBA

/-- Overlay built at lines 228-232 from a parsed color list: the first three
components as the fill color and, as opacity, the fourth component when the
list has more than three entries, else 0.3. -/
def mkOverlay (vs : List ℚ) : (ℚ × ℚ × ℚ) × ℚ :=
  ((vs.getD 0 0, vs.getD 1 0, vs.getD 2 0),
    if 3 < vs.length then vs.getD 3 0 else 3 / 10)

/-- C1: for a request whose narration clip loads, the resolved duration is
narration.duration + 2.0, independent of the requested hint; without
narration, or when the narration fails to load, the resolved duration is the
hint, whose default is 18 seconds. -/
theorem duration_resolver_correct (hint d : ℚ) (narr : NarrationState) :
    actualDuration hint (NarrationState.loaded d) = d + 2
      ∧ (∀ hint2 : ℚ,
          actualDuration hint2 (NarrationState.loaded d)
            = actualDuration hint (NarrationState.loaded d))
      ∧ (narr.clip? = none → actualDuration hint narr = hint)
      ∧ ((requestDuration none : ℕ) : ℚ) = 18 := by
  refine ⟨rfl, fun _ => rfl, ?_, by norm_num [requestDuration, pyOrNat, video_duration]⟩
  intro h
  simp [actualDuration, h]

/-- Concrete instance of the duration resolver theorem. -/
theorem duration_resolver_correct_witness :
    actualDuration 18 (NarrationState.loaded 10) = 12
      ∧ actualDuration 18 NarrationState.noPath = 18 := by
  have h := duration_resolver_correct 18 10 NarrationState.noPath
  refine ⟨?_, h.2.2.1 rfl⟩
  rw [h.1]
  norm_num

/-- The adapted background music always lasts exactly the target duration. -/
theorem bgmAdapted_duration (d actual : ℚ) : (bgmAdapted d actual).duration = actual := by
  unfold bgmAdapted
  split <;> rfl

/-- The adapted narration lasts min of its own duration and the target. -/
theorem voiceAdapted_duration (dv actual : ℚ) :
    (voiceAdapted dv actual).duration = min dv actual := by
  unfold voiceAdapted
  split
  · next h => simp [AClip.subclip0, audioFileVoice, min_eq_right (le_of_lt h)]
  · next h => simp [audioFileVoice, min_eq_left (le_of_not_lt h)]

/-- C2 counterexample: with narration of 5 s and no background music, the
resolved duration is 7 s but the bound audio stream lasts only 5 s; and with
neither input present no audio stream is bound at all (no 18 s silence). -/
theorem audio_duration_invariant_cex :
    actualDuration 18 (NarrationState.loaded 5) = 7
      ∧ mixedDuration none (NarrationState.loaded 5) 7 = some 5
      ∧ (5 : ℚ) ≠ 7
      ∧ mixedDuration none NarrationState.noPath 18 = none := by
  refine ⟨by norm_num [actualDuration, NarrationState.clip?], ?_, by norm_num, rfl⟩
  have h5 : ¬ (5 : ℚ) > 7 := by norm_num
  simp [mixedDuration, mixAudio, NarrationState.clip?, voiceAdapted, h5,
    audioFileVoice, AClip.volumex]

/-- C2 amended: the duration of the bound audio stream equals the resolved
duration whenever background music is present; with only a narration it
equals min(narration.duration, resolved); with neither input no audio
stream is bound (the video is written silent). -/
theorem audio_duration_amended (bgm : Option ℚ) (narr : NarrationState) (actual : ℚ) :
    (∀ d : ℚ, bgm = some d → mixedDuration bgm narr actual = some actual)
      ∧ (∀ dv : ℚ, bgm = none → narr.clip? = some dv →
          mixedDuration bgm narr actual = some (min dv actual))
      ∧ (bgm = none → narr.clip? = none → mixAudio bgm narr actual = none) := by
  refine ⟨?_, ?_, ?_⟩
  · rintro d rfl
    cases hn : narr.clip? with
    | none =>
      simp [mixedDuration, mixAudio, hn, AClip.volumex, bgmAdapted_duration]
    | some dv =>
      simp only [mixedDuration, mixAudio, hn, Option.map_some]
      have hv : (voiceAdapted dv actual).duration = min dv actual :=
        voiceAdapted_duration dv actual
      simp [compositeAudio, AClip.volumex, bgmAdapted_duration, hv,
        max_eq_left (min_le_right dv actual)]
  · rintro dv rfl hn
    simp [mixedDuration, mixAudio, hn, AClip.volumex, voiceAdapted_duration]
  · rintro rfl hn
    simp [mixAudio, hn]

/-- Concrete instance of the amended audio duration theorem: background
music of 5 s and narration of 12.3 s against a resolved duration of 14.3 s
give a bound stream of exactly 14.3 s. -/
theorem audio_duration_amended_witness :
    mixedDuration (some 5) (NarrationState.loaded (123 / 10)) (143 / 10)
      = some (143 / 10) := by
  exact (audio_duration_amended (some 5) (NarrationState.loaded (123 / 10))
    (143 / 10)).1 5 rfl

/-- The adapted narration keeps the raw voiceover samples. -/
theorem voiceAdapted_sample (dv actual : ℚ) :
    (voiceAdapted dv actual).sample = fun t => [(1, ASample.voice t)] := by
  unfold voiceAdapted
  split <;> rfl

/-- The adapted background music plays the source at t mod d when looped,
at t itself when cut. -/
theorem bgmAdapted_sample (d actual : ℚ) :
    (bgmAdapted d actual).sample
      = fun t => [(1, ASample.bgm (if d < actual then qmod t d else t))] := by
  unfold bgmAdapted
  split
  · next h => funext t; simp [AClip.subclip0, concatCopies, audioFileBgm, h]
  · next h => funext t; simp [AClip.subclip0, audioFileBgm, h]

/-- Playing a gain-adjusted clip: the gain multiplies every contribution
inside the clip's own interval. -/
theorem volumex_play (c : AClip) (g t : ℚ) :
    (c.volumex g).play t
      = if 0 ≤ t ∧ t < c.duration
          then (c.sample t).map (fun p => (g * p.1, p.2)) else [] := by
  simp [AClip.play, AClip.volumex]

/-- Playing a composite: both parts play over their own intervals, inside
the composite's interval. -/
theorem compositeAudio_play (a b : AClip) (t : ℚ) :
    (compositeAudio a b).play t
      = if 0 ≤ t ∧ t < max a.duration b.duration
          then a.play t ++ b.play t else [] := by
  simp [AClip.play, compositeAudio]

/-- The gain-adjusted adapted narration plays exactly the raw voice sample
with the given gain on [0, min dv actual). -/
theorem voiceAdapted_volumex_play (dv actual g t : ℚ) :
    ((voiceAdapted dv actual).volumex g).play t
      = if 0 ≤ t ∧ t < min dv actual then [(g * 1, ASample.voice t)] else [] := by
  rw [volumex_play, voiceAdapted_duration, voiceAdapted_sample]
  split_ifs with h <;> rfl

/-- The gain-adjusted adapted background music plays exactly the looped or
cut source sample with the given gain on [0, actual). -/
theorem bgmAdapted_volumex_play (d actual g t : ℚ) :
    ((bgmAdapted d actual).volumex g).play t
      = if 0 ≤ t ∧ t < actual
          then [(g * 1, ASample.bgm (if d < actual then qmod t d else t))]
          else [] := by
  rw [volumex_play, bgmAdapted_duration, bgmAdapted_sample]
  split_ifs with h <;> rfl

/-- A background music contribution is not a voice contribution. -/
theorem isVoiceSample_bgm (g u : ℚ) : isVoiceSample (g, ASample.bgm u) = false := rfl

/-- A voiceover contribution is a voice contribution. -/
theorem isVoiceSample_voice (g u : ℚ) : isVoiceSample (g, ASample.voice u) = true := rfl

/-- Gain application leaves the duration unchanged. -/
theorem volumex_duration (c : AClip) (g : ℚ) : (c.volumex g).duration = c.duration := rfl

/-- C3: the narration is never looped or stretched: at every mix time t the
voiceover contribution of the bound stream is the raw narration sample at
the same time t with gain 0.5, present exactly on
[0, min(narration.duration, resolved)), so its content duration in the mix
is min(narration.duration, resolved). -/
theorem narration_never_looped (bgmD : Option ℚ) (dv actual t : ℚ) :
    ((mixAudio bgmD (NarrationState.loaded dv) actual).elim []
        (fun m => voicePart (m.play t)))
      = if 0 ≤ t ∧ t < min dv actual then [(1 / 2, ASample.voice t)] else [] := by
  have hmin : min dv actual ≤ actual := min_le_right dv actual
  cases bgmD with
  | none =>
    show voicePart (((voiceAdapted dv actual).volumex (1 / 2)).play t) = _
    rw [voiceAdapted_volumex_play]
    split_ifs with h
    · simp [voicePart, isVoiceSample_voice]
    · rfl
  | some d =>
    show voicePart ((compositeAudio ((bgmAdapted d actual).volumex (bgVolume
      (NarrationState.loaded dv))) ((voiceAdapted dv actual).volumex (1 / 2))).play t) = _
    rw [compositeAudio_play]
    simp only [volumex_duration, voiceAdapted_duration, bgmAdapted_duration,
      max_eq_left hmin]
    by_cases h2 : 0 ≤ t ∧ t < actual
    · rw [if_pos h2]
      show voicePart (((bgmAdapted d actual).volumex _).play t
        ++ ((voiceAdapted dv actual).volumex (1 / 2)).play t) = _
      rw [voiceAdapted_volumex_play, bgmAdapted_volumex_play, if_pos h2]
      by_cases h1 : 0 ≤ t ∧ t < min dv actual
      · rw [if_pos h1, if_pos h1]
        simp [voicePart, List.filter_append, isVoiceSample_voice, isVoiceSample_bgm]
      · rw [if_neg h1, if_neg h1]
        simp [voicePart, List.filter_append, isVoiceSample_bgm]
    · have h1 : ¬ (0 ≤ t ∧ t < min dv actual) := by
        intro hc
        exact h2 ⟨hc.1, lt_of_lt_of_le hc.2 hmin⟩
      rw [if_neg h2, if_neg h1]
      rfl

/-- C7: whenever background music is present, the bound stream carries its
samples over exactly [0, resolved): looped (source time t mod d) when the
music is shorter than the resolved duration, a plain cut (source time t)
when it is not — the same loop-or-trim mapping the background video adapter
applies — with gain 0.15 when a narration is present and 0.25 when not. -/
theorem background_music_loop_gain (d : ℚ) (narr : NarrationState) (actual t : ℚ)
    (accent : ℕ × ℕ × ℕ) (w h : ℕ) :
    ((mixAudio (some d) narr actual).elim [] (fun m => bgmPart (m.play t)))
        = (if 0 ≤ t ∧ t < actual
            then [(bgVolume narr, ASample.bgm (if d < actual then qmod t d else t))]
            else [])
      ∧ (bgmAdapted d actual).duration = actual
      ∧ (narr = NarrationState.noPath → bgVolume narr = 25 / 100)
      ∧ (narr ≠ NarrationState.noPath → bgVolume narr = 15 / 100)
      ∧ (∀ sz, (adaptBackground (BgState.loaded d sz) accent w h actual).frame t
          = Frame.ofSource (if d < actual then qmod t d else t)) := by
  refine ⟨?_, bgmAdapted_duration d actual, ?_, ?_, ?_⟩
  · cases hn : narr.clip? with
    | none =>
      have hm : mixAudio (some d) narr actual
          = some ((bgmAdapted d actual).volumex (bgVolume narr)) := by
        simp [mixAudio, hn]
      rw [hm]
      show bgmPart (((bgmAdapted d actual).volumex (bgVolume narr)).play t) = _
      rw [bgmAdapted_volumex_play]
      split_ifs <;> simp [bgmPart, isVoiceSample_bgm]
    | some dv =>
      have hm : mixAudio (some d) narr actual
          = some (compositeAudio ((bgmAdapted d actual).volumex (bgVolume narr))
              ((voiceAdapted dv actual).volumex (1 / 2))) := by
        simp [mixAudio, hn]
      rw [hm]
      have hmin : min dv actual ≤ actual := min_le_right dv actual
      show bgmPart ((compositeAudio ((bgmAdapted d actual).volumex (bgVolume narr))
        ((voiceAdapted dv actual).volumex (1 / 2))).play t) = _
      rw [compositeAudio_play]
      simp only [volumex_duration, voiceAdapted_duration, bgmAdapted_duration,
        max_eq_left hmin]
      by_cases h2 : 0 ≤ t ∧ t < actual
      · rw [if_pos h2]
        show bgmPart (((bgmAdapted d actual).volumex _).play t
          ++ ((voiceAdapted dv actual).volumex (1 / 2)).play t) = _
        rw [voiceAdapted_volumex_play, bgmAdapted_volumex_play, if_pos h2]
        by_cases h1 : 0 ≤ t ∧ t < min dv actual
        · rw [if_pos h1, if_pos h2]
          simp [bgmPart, List.filter_append, isVoiceSample_voice, isVoiceSample_bgm]
        · rw [if_neg h1, if_pos h2]
          simp [bgmPart, List.filter_append, isVoiceSample_bgm]
      · rw [if_neg h2, if_neg h2]
        rfl
  · intro he
    simp [bgVolume, he, NarrationState.hasPath]
  · intro he
    cases narr with
    | noPath => exact absurd rfl he
    | pathMissing => simp [bgVolume, NarrationState.hasPath]
    | loadError => simp [bgVolume, NarrationState.hasPath]
    | loaded dv => simp [bgVolume, NarrationState.hasPath]
  · intro sz
    unfold adaptBackground
    split_ifs with hd <;> simp [hd]

/-- Concrete instance of the background music theorem: music of 5 s against
a resolved duration of 14.3 s, narration present, at mix time 12: the heard
music sample is the source at 12 mod 5 = 2 with gain 0.15. -/
theorem background_music_loop_gain_witness :
    ((mixAudio (some 5) (NarrationState.loaded (123 / 10)) (143 / 10)).elim []
        (fun m => bgmPart (m.play 12)))
      = [(15 / 100, ASample.bgm 2)]
      ∧ bgVolume (NarrationState.loaded (123 / 10)) = 15 / 100 := by
  have h := background_music_loop_gain 5 (NarrationState.loaded (123 / 10))
    (143 / 10) 12 (0, 0, 0) 1080 1920
  constructor
  · rw [h.1]
    have h5 : (5 : ℚ) < 143 / 10 := by norm_num
    have hq : qmod 12 5 = 2 := by with_unfolding_all decide
    rw [if_pos (by norm_num), if_pos h5, hq]
    rw [h.2.2.2.1 (by intro hc; cases hc)]
  · exact h.2.2.2.1 (by intro hc; cases hc)

/-- C4: the adapted background clip always lasts exactly the resolved
duration; a loaded clip shorter than the target shows the source at t mod
native duration (a repetition: shifting by the native duration replays the
same source frame), a loaded clip at least as long shows the plain source
at t (the [0, resolved) part); an absent or unloadable clip is replaced,
without aborting, by a solid clip of the theme accent color sized
(width, height). -/
theorem background_adapter_correct (bg : BgState) (accent : ℕ × ℕ × ℕ)
    (w h : ℕ) (actual : ℚ) :
    (adaptBackground bg accent w h actual).duration = actual
      ∧ (∀ d : ℚ, ∀ sz : ℕ × ℕ, bg = BgState.loaded d sz → d < actual →
          ∀ t : ℚ, (adaptBackground bg accent w h actual).frame t
            = Frame.ofSource (qmod t d))
      ∧ (∀ d : ℚ, ∀ sz : ℕ × ℕ, bg = BgState.loaded d sz → ¬ d < actual →
          ∀ t : ℚ, (adaptBackground bg accent w h actual).frame t
            = Frame.ofSource t)
      ∧ ((bg = BgState.absent ∨ bg = BgState.loadError) →
          (adaptBackground bg accent w h actual).size = (w, h)
            ∧ ∀ t : ℚ, (adaptBackground bg accent w h actual).frame t
              = Frame.solid accent)
      ∧ (∀ d : ℚ, 0 < d → ∀ t : ℚ, qmod (t + d) d = qmod t d) := by
  refine ⟨?_, ?_, ?_, ?_, ?_⟩
  · cases bg with
    | loaded d sz => by_cases hd : d < actual <;> simp [adaptBackground, hd]
    | absent => rfl
    | loadError => rfl
  · rintro d sz rfl hd t
    simp [adaptBackground, hd]
  · rintro d sz rfl hd t
    simp [adaptBackground, hd]
  · rintro (rfl | rfl) <;> exact ⟨rfl, fun t => rfl⟩
  · intro d hd t
    have hdne : d ≠ 0 := ne_of_gt hd
    unfold qmod
    have hdiv : (t + d) / d = t / d + 1 := by field_simp
    rw [hdiv, Int.floor_add_one]
    push_cast
    ring

/-- Concrete instance of the background adapter theorem: a 5 s clip against
an 18 s target is looped, lasts 18 s, shows the source at t mod 5, and
repeats with period 5. -/
theorem background_adapter_correct_witness :
    (adaptBackground (BgState.loaded 5 (640, 360)) (143, 188, 143) 1080 1920 18).duration = 18
      ∧ (adaptBackground (BgState.loaded 5 (640, 360)) (143, 188, 143) 1080 1920 18).frame 7
          = Frame.ofSource (qmod 7 5)
      ∧ qmod 12 5 = qmod 7 5 := by
  have h := background_adapter_correct (BgState.loaded 5 (640, 360)) (143, 188, 143)
    1080 1920 18
  refine ⟨h.1, h.2.1 5 (640, 360) rfl (by norm_num) 7, ?_⟩
  have hp := h.2.2.2.2 5 (by norm_num) 7
  have h12 : (7 : ℚ) + 5 = 12 := by norm_num
  rw [h12] at hp
  exact hp

/-- C8: the composited output's duration is exactly the resolved duration
and its resolution is exactly the configured 1080 x 1920, whatever the
native durations and sizes of the source clips and text elements are. -/
theorem compositor_output_correct (hint : ℚ) (narr : NarrationState) (bg : BgState)
    (bgm : Option ℚ) (accent : ℕ × ℕ × ℕ) (textTracks : List VideoTrack) :
    (createVideoSync hint narr bg bgm accent video_width video_height textTracks).duration
        = actualDuration hint narr
      ∧ (createVideoSync hint narr bg bgm accent video_width video_height textTracks).size
        = (1080, 1920) :=
  ⟨rfl, rfl⟩

/-- C6: in every animation mode the start delay of line i is i times the
mode constant (plain fade 0.5 s, typewriter 0.8 s, slide up 0.3 s, word by
word 0.6 s, gentle zoom 0.4 s), strictly increasing in i; the visible
duration is D minus the delay, so each line ends exactly at D and is
positive whenever D exceeds the largest delay; slide up gets no fade while
the other modes fade in for 1.0 s, 0.1 s, 0.5 s and 0.8 s. -/
theorem animation_schedule_correct (anim : AnimationType) (D : ℚ) (i j N : ℕ) :
    (applyTextAnimation anim D i).start = (i : ℚ) * delayConst anim
      ∧ (applyTextAnimation anim D i).duration = D - (i : ℚ) * delayConst anim
      ∧ (applyTextAnimation anim D i).start + (applyTextAnimation anim D i).duration = D
      ∧ (i < j → (applyTextAnimation anim D i).start < (applyTextAnimation anim D j).start)
      ∧ (i < N → ((N - 1 : ℕ) : ℚ) * delayConst anim < D →
          0 < (applyTextAnimation anim D i).duration)
      ∧ (applyTextAnimation anim D i).fade = modeFade anim
      ∧ delayConst AnimationType.fade_in = 5 / 10
      ∧ delayConst AnimationType.typewriter = 8 / 10
      ∧ delayConst AnimationType.slide_up = 3 / 10
      ∧ delayConst AnimationType.word_by_word = 6 / 10
      ∧ delayConst AnimationType.gentle_zoom = 4 / 10
      ∧ modeFade AnimationType.fade_in = some 1
      ∧ modeFade AnimationType.typewriter = some (1 / 10)
      ∧ modeFade AnimationType.slide_up = none
      ∧ modeFade AnimationType.word_by_word = some (5 / 10)
      ∧ modeFade AnimationType.gentle_zoom = some (8 / 10) := by
  have key : ∀ c : ℚ, 0 < c →
      ((i : ℚ) * c + (D - (i : ℚ) * c) = D)
        ∧ (i < j → (i : ℚ) * c < (j : ℚ) * c)
        ∧ (i < N → ((N - 1 : ℕ) : ℚ) * c < D → 0 < D - (i : ℚ) * c) := by
    intro c hc
    refine ⟨by ring, ?_, ?_⟩
    · intro hij
      have hij2 : (i : ℚ) < (j : ℚ) := by exact_mod_cast hij
      exact mul_lt_mul_of_pos_right hij2 hc
    · intro hiN hND
      have h1 : (i : ℚ) ≤ ((N - 1 : ℕ) : ℚ) := by
        exact_mod_cast Nat.le_sub_one_of_lt hiN
      have h2 : (i : ℚ) * c ≤ ((N - 1 : ℕ) : ℚ) * c :=
        mul_le_mul_of_nonneg_right h1 (le_of_lt hc)
      linarith
  cases anim <;>
    exact ⟨rfl, rfl, (key _ (by norm_num)).1, fun hij => (key _ (by norm_num)).2.1 hij,
      fun hiN hND => (key _ (by norm_num)).2.2 hiN hND, rfl, rfl, rfl, rfl, rfl, rfl,
      rfl, rfl, rfl, rfl, rfl⟩

/-- Concrete instance of the animation scheduling theorem: typewriter mode
over 18 s, lines 1 and 3 of 4: delays 0.8 s and 2.4 s, increasing, and line
3 stays visible 15.6 s. -/
theorem animation_schedule_correct_witness :
    (applyTextAnimation AnimationType.typewriter 18 1).start
        < (applyTextAnimation AnimationType.typewriter 18 3).start
      ∧ 0 < (applyTextAnimation AnimationType.typewriter 18 3).duration := by
  refine ⟨(animation_schedule_correct AnimationType.typewriter 18 1 3 4).2.2.2.1
    (by norm_num), ?_⟩
  refine (animation_schedule_correct AnimationType.typewriter 18 3 0 4).2.2.2.2.1
    (by norm_num) ?_
  norm_num [delayConst]

/-- C5 counterexample: with input lines a, a blank line, b (font 10,
spacing 1, frame height 100) the source layout charges three slots
(total 30, start 35, b at slot index 2, y = 55), while the dropped-first
layout of the claim gives total 20, start 40, b at 50: blank lines do
consume a vertical slot. -/
theorem caption_layout_cex :
    (createTextClipsLayout ["a", " ", "b"] 10 1 100).placed = [("a", 35), ("b", 55)]
      ∧ (claimedCaptionLayout ["a", " ", "b"] 10 1 100).2.2 = [("a", 40), ("b", 50)]
      ∧ (createTextClipsLayout ["a", " ", "b"] 10 1 100).totalTextHeight = 30
      ∧ (claimedCaptionLayout ["a", " ", "b"] 10 1 100).1 = 20
      ∧ ((createTextClipsLayout ["a", " ", "b"] 10 1 100).placed.map
            (fun p => (p.1, (p.2 : ℚ))))
          ≠ (claimedCaptionLayout ["a", " ", "b"] 10 1 100).2.2 := by
  refine ⟨?_, ?_, ?_, ?_, ?_⟩ <;> with_unfolding_all decide

/-- C5 amended: empty or whitespace-only lines produce no text element but
still consume a vertical slot: line_height = int(font_size * line_spacing),
total_text_height counts ALL input lines, start_y = (height - total) // 2,
the element of original line i sits at start_y + i * line_height, only
non-blank lines produce elements, and the element count is the non-blank
line count. -/
theorem caption_layout_amended (poetry_lines : List String) (font_size : ℕ)
    (line_spacing : ℚ) (height : ℤ) :
    (createTextClipsLayout poetry_lines font_size line_spacing height).lineHeight
        = pyInt ((font_size : ℚ) * line_spacing)
      ∧ (createTextClipsLayout poetry_lines font_size line_spacing height).totalTextHeight
        = (poetry_lines.length : ℤ) * pyInt ((font_size : ℚ) * line_spacing)
      ∧ (createTextClipsLayout poetry_lines font_size line_spacing height).startY
        = Int.fdiv (height - (poetry_lines.length : ℤ)
            * pyInt ((font_size : ℚ) * line_spacing)) 2
      ∧ (∀ i : ℕ, ∀ hi : i < poetry_lines.length,
          pyStrip (poetry_lines.get ⟨i, hi⟩) ≠ "" →
            (pyStrip (poetry_lines.get ⟨i, hi⟩),
                (createTextClipsLayout poetry_lines font_size line_spacing height).startY
                  + (i : ℤ) * pyInt ((font_size : ℚ) * line_spacing))
              ∈ (createTextClipsLayout poetry_lines font_size line_spacing height).placed)
      ∧ (∀ p ∈ (createTextClipsLayout poetry_lines font_size line_spacing height).placed,
          p.1 ≠ "")
      ∧ (createTextClipsLayout poetry_lines font_size line_spacing height).placed.length
        = (poetry_lines.filter (fun l => decide (pyStrip l ≠ ""))).length := by
  refine ⟨rfl, rfl, rfl, ?_, ?_, ?_⟩
  · intro i hi hne
    have hlen : i < poetry_lines.enum.length := by
      simpa [List.enum_length] using hi
    have hget : poetry_lines.enum.get ⟨i, hlen⟩ = (i, poetry_lines.get ⟨i, hi⟩) := by
      simp [List.get_eq_getElem, List.getElem_enum]
    have hmem : (i, poetry_lines.get ⟨i, hi⟩) ∈ poetry_lines.enum := by
      rw [← hget]
      exact List.get_mem _ _ _
    have hfil : (i, poetry_lines.get ⟨i, hi⟩)
        ∈ poetry_lines.enum.filter (fun p => decide (pyStrip p.2 ≠ "")) := by
      rw [List.mem_filter]
      exact ⟨hmem, by simpa using hne⟩
    exact List.mem_map.mpr ⟨(i, poetry_lines.get ⟨i, hi⟩), hfil, rfl⟩
  · intro p hp
    obtain ⟨q, hq, hqe⟩ := List.mem_map.mp hp
    have hq2 := (List.mem_filter.mp hq).2
    rw [← hqe]
    simpa using hq2
  · show ((poetry_lines.enum.filter (fun p => decide (pyStrip p.2 ≠ ""))).map _).length = _
    rw [List.length_map, ← List.countP_eq_length_filter, ← List.countP_eq_length_filter]
    conv_rhs => rw [← List.enum_map_snd poetry_lines]
    rw [List.countP_map]
    rfl

/-- Concrete instance of the amended caption layout theorem: line b, at
original index 2 of a, blank, b, is placed at 35 + 2 * 10 = 55. -/
theorem caption_layout_amended_witness :
    ("b", (55 : ℤ)) ∈ (createTextClipsLayout ["a", " ", "b"] 10 1 100).placed := by
  have hi : (2 : ℕ) < (["a", " ", "b"] : List String).length := by norm_num
  have h1 : pyStrip ((["a", " ", "b"] : List String).get ⟨2, hi⟩) = "b" := by
    with_unfolding_all rfl
  have hb : ("b" : String) ≠ "" := by decide
  have hm := (caption_layout_amended ["a", " ", "b"] 10 1 100).2.2.2.1 2 hi
    (fun hcon => hb (h1.symm.trans hcon))
  have hy : (createTextClipsLayout ["a", " ", "b"] 10 1 100).startY
      + ((2 : ℕ) : ℤ) * pyInt (((10 : ℕ) : ℚ) * 1) = 55 := by
    with_unfolding_all decide
  rw [h1, hy] at hm
  exact hm

/-- C9 counterexample: on the success path of a request that created all
four temporary files, the voiceover file is among the created files but not
among the removed ones, and on a render failure nothing at all is removed
although the output file was created. -/
theorem temp_cleanup_cex :
    TempFile.voiceoverFile ∈ createdFiles ⟨true, true, true⟩
      ∧ TempFile.voiceoverFile ∉ cleanedFiles ⟨true, true, true⟩ (ExitPath.success false)
      ∧ cleanedFiles ⟨true, true, true⟩ ExitPath.renderFailure = []
      ∧ TempFile.outputFile ∈ createdFiles ⟨true, true, true⟩ := by
  refine ⟨?_, ?_, rfl, ?_⟩ <;> decide

/-- C9 amended: temporary files are removed only on the success path, where
the output file (when the upload did not return a local file URL), the
background copy and the audio copy are unlinked; on a render or upload
failure nothing is removed, and the voiceover file is never removed on any
path even though it is created whenever a voiceover was generated. -/
theorem temp_cleanup_amended (f : RequestFiles) (p : ExitPath) :
    (∀ b : Bool, p = ExitPath.success b →
        cleanedFiles f p
          = (if !b then [TempFile.outputFile] else [])
              ++ (if f.hasBackground then [TempFile.backgroundCopy] else [])
              ++ (if f.hasAudio then [TempFile.audioCopy] else []))
      ∧ (p = ExitPath.renderFailure ∨ p = ExitPath.uploadFailure →
          cleanedFiles f p = [])
      ∧ TempFile.voiceoverFile ∉ cleanedFiles f p
      ∧ (TempFile.voiceoverFile ∈ createdFiles f ↔ f.hasVoiceover = true) := by
  refine ⟨?_, ?_, ?_, ?_⟩
  · rintro b rfl
    rfl
  · rintro (rfl | rfl) <;> rfl
  · obtain ⟨hb, ha, hv⟩ := f
    cases p with
    | success b => cases b <;> cases hb <;> cases ha <;> cases hv <;> decide
    | renderFailure => simp [cleanedFiles]
    | uploadFailure => simp [cleanedFiles]
  · obtain ⟨hb, ha, hv⟩ := f
    cases hb <;> cases ha <;> cases hv <;> decide

/-- Concrete instance of the amended cleanup theorem: a fully-equipped
request on the remote-upload success path removes exactly output file,
background copy and audio copy, and not the voiceover file. -/
theorem temp_cleanup_amended_witness :
    cleanedFiles ⟨true, true, true⟩ (ExitPath.success false)
        = [TempFile.outputFile, TempFile.backgroundCopy, TempFile.audioCopy]
      ∧ TempFile.voiceoverFile ∉ cleanedFiles ⟨true, true, true⟩ (ExitPath.success false) := by
  have h := temp_cleanup_amended ⟨true, true, true⟩ (ExitPath.success false)
  refine ⟨?_, h.2.2.1⟩
  rw [h.1 false rfl]
  rfl

/-- C10: parsing the overlay color is total: a string starting with rgba(
whose inner components all parse yields exactly those components; a parse
failure there yields the fixed default; any other string goes through the
hex parser with implied alpha 1.0; a hex failure also yields the default
(0, 0, 0, 0.3), which the overlay construction turns into a 30 percent
opacity black overlay. -/
theorem parse_rgba_total_correct (s : String) :
    (pyStartsWith s "rgba(" = true → ∀ vs : List ℚ, rgbaNums s = some vs →
        parse_rgba s = vs)
      ∧ (pyStartsWith s "rgba(" = true → rgbaNums s = none →
          parse_rgba s = defaultRGBA)
      ∧ (pyStartsWith s "rgba(" = false → ∀ r g b : ℕ, hex_to_rgb s = some (r, g, b) →
          parse_rgba s = [(r : ℚ), (g : ℚ), (b : ℚ), 1])
      ∧ (pyStartsWith s "rgba(" = false → hex_to_rgb s = none →
          parse_rgba s = defaultRGBA)
      ∧ mkOverlay defaultRGBA = ((0, 0, 0), 3 / 10) := by
  refine ⟨?_, ?_, ?_, ?_, ?_⟩
  · intro hs vs hv
    simp [parse_rgba, hs, hv]
  · intro hs hv
    simp [parse_rgba, hs, hv]
  · intro hs r g b hv
    simp [parse_rgba, hs, hv]
  · intro hs hv
    simp [parse_rgba, hs, hv]
  · with_unfolding_all decide

/-- Concrete instances of the rgba parsing theorem: the theme string
rgba(0, 0, 0, 0.3) parses to its components, a 6-digit hex accent gets
alpha 1.0, and a malformed hex string falls back to (0, 0, 0, 0.3). -/
theorem parse_rgba_total_correct_witness :
    parse_rgba "rgba(0, 0, 0, 0.3)" = [0, 0, 0, 3 / 10]
      ∧ parse_rgba "#8fbc8f" = [143, 188, 143, 1]
      ∧ parse_rgba "#zz0000" = defaultRGBA := by
  refine ⟨?_, ?_, ?_⟩
  · exact (parse_rgba_total_correct "rgba(0, 0, 0, 0.3)").1 (by with_unfolding_all decide)
      [0, 0, 0, 3 / 10] (by with_unfolding_all decide)
  · exact (parse_rgba_total_correct "#8fbc8f").2.2.1 (by with_unfolding_all decide)
      143 188 143 (by with_unfolding_all decide)
  · exact (parse_rgba_total_correct "#zz0000").2.2.2.1 (by with_unfolding_all decide)
      (by with_unfolding_all decide)

end PoetryVideo
